import Mathlib

/-!
Verification of the divergence-scanner core of `bitcoindiv.py`.

The embedding models the three core components over exact rationals:
* `calculate_rsi` / `macd_hist` — the indicator engine (`calculate_indicators`),
  with pandas NaN values represented as `none` and the `ewm(adjust=False)`
  recursion made explicit;
* `find_peaks_valleys` — the local-extrema detector;
* `analyze_market` — the divergence classifier; Python indexing that can raise
  (`iloc[-1]`, `iloc[-2]`, column lookups) is modelled in the `Option` monad,
  so `none` marks an uncaught `IndexError`/`KeyError`.

The tuple unpacks at lines 88–89 are modelled exactly as written: the
detector returns `(peaks, valleys)`, and the code binds `price_valleys_idx`
to the peaks of the low column and `price_peaks_idx` to the valleys of the
high column, so each classifier branch runs on the opposite list from the one
its name (and the spec) suggests.
-/

namespace BitcoinDiv

set_option maxRecDepth 200000

/-- Configuration constants from the source header. -/
def RSI_LENGTH : Nat := 14

/-- Extrema lookback window (`LOOKBACK = 5`). -/
def LOOKBACK : Nat := 5

/-- MACD fast period. -/
def MACD_FAST : Nat := 12

/-- MACD slow period. -/
def MACD_SLOW : Nat := 26

/-- MACD signal period. -/
def MACD_SIGNAL : Nat := 9

/-- One OHLC candle; only the fields the core reads are modelled. -/
structure Candle where
  high : ℚ
  low : ℚ
  close : ℚ
  deriving DecidableEq, Repr

/-- The `low` column of the dataframe. -/
def lows (df : List Candle) : List ℚ := df.map Candle.low

/-- The `high` column of the dataframe. -/
def highs (df : List Candle) : List ℚ := df.map Candle.high

/-- The `close` column of the dataframe. -/
def closes (df : List Candle) : List ℚ := df.map Candle.close

/-- Python negative indexing `series.iloc[-k]` (`k ≥ 1`): fails (raises) when
the series is shorter than `k`. -/
def ilocNeg {α : Type} (l : List α) (k : Nat) : Option α :=
  if k ≤ l.length then l[l.length - k]? else none

/-- Per-element delta: `df['close'].diff()`; position 0 is NaN (`none`). -/
def diffs (xs : List ℚ) : List (Option ℚ) :=
  match xs with
  | [] => []
  | _ :: rest => none :: List.zipWith (fun a b => some (b - a)) xs rest

/-- One gain entry: `delta.where(delta > 0, 0)`; NaN compares false, so the
NaN at position 0 is replaced by 0. -/
def gainOf (d : Option ℚ) : ℚ :=
  match d with
  | some x => if x > 0 then x else 0
  | none => 0

/-- One loss entry: `-delta.where(delta < 0, 0)`. -/
def lossOf (d : Option ℚ) : ℚ :=
  match d with
  | some x => if x < 0 then -x else 0
  | none => 0

/-- The `gain` series of `calculate_indicators`. -/
def gains (xs : List ℚ) : List ℚ := (diffs xs).map gainOf

/-- The `loss` series of `calculate_indicators`. -/
def losses (xs : List ℚ) : List ℚ := (diffs xs).map lossOf

/-- Accumulator loop of `ewm(alpha=α, adjust=False).mean()`:
`y[0] = x[0]`, `y[i] = α·x[i] + (1-α)·y[i-1]`. -/
def ewmGo (α : ℚ) (y : ℚ) : List ℚ → List ℚ
  | [] => [y]
  | a :: as => y :: ewmGo α (α * a + (1 - α) * y) as

/-- Model of `xs.ewm(alpha=α, adjust=False).mean()` on a NaN-free series. -/
def ewmAdjFalse (α : ℚ) : List ℚ → List ℚ
  | [] => []
  | x :: rest => ewmGo α x rest

/-- The `min_periods=m` mask of a pandas expanding/ewm result: position `i` is
NaN until `i + 1 ≥ m` observations have been seen (the input has no NaN). -/
def maskMinPeriods (m : Nat) (xs : List ℚ) : List (Option ℚ) :=
  List.zipWith (fun i v => if i + 1 < m then none else some v)
    (List.range xs.length) xs

/-- Model of `gain.ewm(alpha=1/RSI_LENGTH, min_periods=RSI_LENGTH, adjust=False).mean()`. -/
def avg_gain (close : List ℚ) : List (Option ℚ) :=
  maskMinPeriods RSI_LENGTH (ewmAdjFalse (1 / (RSI_LENGTH : ℚ)) (gains close))

/-- Model of `loss.ewm(alpha=1/RSI_LENGTH, min_periods=RSI_LENGTH, adjust=False).mean()`. -/
def avg_loss (close : List ℚ) : List (Option ℚ) :=
  maskMinPeriods RSI_LENGTH (ewmAdjFalse (1 / (RSI_LENGTH : ℚ)) (losses close))

/-- One RSI entry: `rs = g/l; rsi = 100 - 100/(1+rs)` with float semantics.
NaN in either average propagates.  `g` and `l` are nonnegative by
construction, so division by `l = 0` gives `rs = +inf` (hence 100) when
`g > 0` and NaN (`none`) for the `0/0` flat-market case. -/
def rsiStep (g l : Option ℚ) : Option ℚ :=
  match g, l with
  | some g, some l =>
    if l = 0 then (if g = 0 then none else some 100)
    else some (100 - 100 / (1 + g / l))
  | _, _ => none

/-- The `rsi` column as computed by `calculate_indicators`. -/
def calculate_rsi (close : List ℚ) : List (Option ℚ) :=
  List.zipWith rsiStep (avg_gain close) (avg_loss close)

/-- Model of `close.ewm(span=s, adjust=False).mean()`: `α = 2/(s+1)`. -/
def ewmSpan (s : Nat) (xs : List ℚ) : List ℚ :=
  ewmAdjFalse (2 / ((s : ℚ) + 1)) xs

/-- The MACD line `exp1 - exp2`. -/
def macd_line (close : List ℚ) : List ℚ :=
  List.zipWith (fun a b => a - b) (ewmSpan MACD_FAST close) (ewmSpan MACD_SLOW close)

/-- The signal line `macd_line.ewm(span=MACD_SIGNAL, adjust=False).mean()`. -/
def signal_line (close : List ℚ) : List ℚ :=
  ewmSpan MACD_SIGNAL (macd_line close)

/-- The `macd_hist` column, `macd_line - signal_line`. -/
def macd_hist (close : List ℚ) : List ℚ :=
  List.zipWith (fun a b => a - b) (macd_line close) (signal_line close)

/-- Peak test of `find_peaks_valleys`:
`all(current > series[i-j] for j in range(1, lookback+1)) and
    all(current > series[i+j] for j in range(1, lookback+1))`. -/
def isPeak (s : List ℚ) (lookback i : Nat) : Bool :=
  ((List.range' 1 lookback).all fun j => decide (s.getD i 0 > s.getD (i - j) 0)) &&
  ((List.range' 1 lookback).all fun j => decide (s.getD i 0 > s.getD (i + j) 0))

/-- Valley test of `find_peaks_valleys`, strict `<` against both windows. -/
def isValley (s : List ℚ) (lookback i : Nat) : Bool :=
  ((List.range' 1 lookback).all fun j => decide (s.getD i 0 < s.getD (i - j) 0)) &&
  ((List.range' 1 lookback).all fun j => decide (s.getD i 0 < s.getD (i + j) 0))

/-- Model of `find_peaks_valleys(series, lookback)`: local extrema over
`range(lookback, len(series) - lookback)`; short series give two empty
lists. -/
def find_peaks_valleys (s : List ℚ) (lookback : Nat) : List Nat × List Nat :=
  if s.length < lookback * 2 then ([], [])
  else
    ((List.range' lookback (s.length - lookback - lookback)).filter (isPeak s lookback),
     (List.range' lookback (s.length - lookback - lookback)).filter (isValley s lookback))

/-- The classifier's signal value (`"Neutral"`, green `BULLISH DIV`,
red `BEARISH DIV`). -/
inductive Signal where
  | Neutral
  | BullishDiv
  | BearishDiv
  deriving DecidableEq, Repr

/-- MACD confirmation column: `"-"`, `"✅ JA"`, `"❌ NEIN"`. -/
inductive Conf where
  | NA
  | Confirmed
  | NotConfirmed
  deriving DecidableEq, Repr

/-- The four numbers interpolated into the `details` string
(`P:{p_prev}->{p_last} RSI:{r_prev}->{r_last}`); RSI entries may be NaN. -/
structure Details where
  pPrev : ℚ
  pLast : ℚ
  rPrev : Option ℚ
  rLast : Option ℚ
  deriving DecidableEq, Repr

/-- Classifier state: the `signal`, `details`, `macd_conf` variables. -/
structure AState where
  sig : Signal
  details : Option Details
  conf : Conf
  deriving DecidableEq, Repr

/-- Initial classifier state (`"Neutral"`, `"-"`, `"-"`). -/
def st0 : AState := ⟨Signal.Neutral, none, Conf.NA⟩

/-- Python float `>` on possibly-NaN operands: false when either is NaN. -/
def nanGt (a b : Option ℚ) : Bool :=
  match a, b with
  | some x, some y => decide (x > y)
  | _, _ => false

/-- Python float `<` on possibly-NaN operands: false when either is NaN. -/
def nanLt (a b : Option ℚ) : Bool :=
  match a, b with
  | some x, some y => decide (x < y)
  | _, _ => false

/-- Python `lst[-1]` of a list known to be nonempty. -/
def lastIdx (l : List Nat) : Nat := l.getD (l.length - 1) 0

/-- Python `lst[-2]` of a list known to have ≥ 2 entries. -/
def prevIdx (l : List Nat) : Nat := l.getD (l.length - 2) 0

/-- The bullish branch of `analyze_market` (lines 99–119). -/
def checkBullish (low : List ℚ) (rsi : List (Option ℚ)) (valleys : List Nat)
    (n : Nat) (curr_hist prev_hist : ℚ) (st : AState) : Option AState :=
  if 2 ≤ valleys.length then
    if (n : ℤ) - (lastIdx valleys : ℤ) < 15 then do
      let p_last ← low[lastIdx valleys]?
      let p_prev ← low[prevIdx valleys]?
      let r_last ← rsi[lastIdx valleys]?
      let r_prev ← rsi[prevIdx valleys]?
      if p_last < p_prev ∧ nanGt r_last r_prev = true then
        pure ⟨Signal.BullishDiv, some ⟨p_prev, p_last, r_prev, r_last⟩,
              if curr_hist > prev_hist then Conf.Confirmed else Conf.NotConfirmed⟩
      else pure st
    else pure st
  else pure st

/-- The bearish branch of `analyze_market` (lines 121–141). -/
def checkBearish (high : List ℚ) (rsi : List (Option ℚ)) (peaks : List Nat)
    (n : Nat) (curr_hist prev_hist : ℚ) (st : AState) : Option AState :=
  if 2 ≤ peaks.length then
    if (n : ℤ) - (lastIdx peaks : ℤ) < 15 then do
      let p_last ← high[lastIdx peaks]?
      let p_prev ← high[prevIdx peaks]?
      let r_last ← rsi[lastIdx peaks]?
      let r_prev ← rsi[prevIdx peaks]?
      if p_last > p_prev ∧ nanLt r_last r_prev = true then
        pure ⟨Signal.BearishDiv, some ⟨p_prev, p_last, r_prev, r_last⟩,
              if curr_hist < prev_hist then Conf.Confirmed else Conf.NotConfirmed⟩
      else pure st
    else pure st
  else pure st

/-- The list line 88 binds: `price_valleys_idx, _ = find_peaks_valleys(df['low'])`.
`find_peaks_valleys` returns `(peaks, valleys)`, so despite its name this
variable holds the PEAKS of the low column — the unpack is swapped. -/
def price_valleys_idx (df : List Candle) : List Nat :=
  (find_peaks_valleys (lows df) LOOKBACK).1

/-- The list line 89 binds: `_, price_peaks_idx = find_peaks_valleys(df['high'])`.
Despite its name this variable holds the VALLEYS of the high column — the
unpack is swapped. -/
def price_peaks_idx (df : List Candle) : List Nat :=
  (find_peaks_valleys (highs df) LOOKBACK).2

/-- RSI series of the close column. -/
def rsiOf (df : List Candle) : List (Option ℚ) := calculate_rsi (closes df)

/-- MACD histogram series of the close column. -/
def histOf (df : List Candle) : List ℚ := macd_hist (closes df)

/-- Model of `analyze_market(df)`: returns `(close.iloc[-1], signal, details, macd_conf)`;
`none` models an uncaught exception (the `iloc[-1]`/`iloc[-2]` reads on a
series that is too short).  Because of the swapped unpacks at lines 88–89,
the "bullish" branch receives the peaks of the low column and the "bearish"
branch the valleys of the high column. -/
def analyze_market (df : List Candle) : Option (ℚ × AState) := do
  let curr_hist ← ilocNeg (histOf df) 1
  let prev_hist ← ilocNeg (histOf df) 2
  let st1 ← checkBullish (lows df) (rsiOf df) (price_valleys_idx df) df.length
    curr_hist prev_hist st0
  let st2 ← checkBearish (highs df) (rsiOf df) (price_peaks_idx df) df.length
    curr_hist prev_hist st1
  let lastClose ← ilocNeg (closes df) 1
  return (lastClose, st2)

/-- The code's bullish branch fires: at least two entries in
`price_valleys_idx` (in fact the peaks of the low column), the most recent
one fresh, a strictly lower low value and a strictly higher RSI at the two
most recent entries. -/
def bullishFires (df : List Candle) : Prop :=
  2 ≤ (price_valleys_idx df).length ∧
  (df.length : ℤ) - (lastIdx (price_valleys_idx df) : ℤ) < 15 ∧
  (lows df).getD (lastIdx (price_valleys_idx df)) 0 <
    (lows df).getD (prevIdx (price_valleys_idx df)) 0 ∧
  nanGt ((rsiOf df).getD (lastIdx (price_valleys_idx df)) none)
        ((rsiOf df).getD (prevIdx (price_valleys_idx df)) none) = true

/-- The code's bearish branch fires: at least two entries in
`price_peaks_idx` (in fact the valleys of the high column), the most recent
one fresh, a strictly higher high value and a strictly lower RSI at the two
most recent entries. -/
def bearishFires (df : List Candle) : Prop :=
  2 ≤ (price_peaks_idx df).length ∧
  (df.length : ℤ) - (lastIdx (price_peaks_idx df) : ℤ) < 15 ∧
  (highs df).getD (prevIdx (price_peaks_idx df)) 0 <
    (highs df).getD (lastIdx (price_peaks_idx df)) 0 ∧
  nanLt ((rsiOf df).getD (lastIdx (price_peaks_idx df)) none)
        ((rsiOf df).getD (prevIdx (price_peaks_idx df)) none) = true

instance (df : List Candle) : Decidable (bullishFires df) := by
  unfold bullishFires; infer_instance

instance (df : List Candle) : Decidable (bearishFires df) := by
  unfold bearishFires; infer_instance

/-- The bullish premises exactly as the claim and the spec state them: over
the two most recent VALLEYS of the low column (`(find_peaks_valleys low).2`).
The code's branch never sees this list — line 88 binds the peaks instead. -/
def bullishSpecPattern (df : List Candle) : Prop :=
  2 ≤ ((find_peaks_valleys (lows df) LOOKBACK).2).length ∧
  (df.length : ℤ) - (lastIdx (find_peaks_valleys (lows df) LOOKBACK).2 : ℤ) < 15 ∧
  (lows df).getD (lastIdx (find_peaks_valleys (lows df) LOOKBACK).2) 0 <
    (lows df).getD (prevIdx (find_peaks_valleys (lows df) LOOKBACK).2) 0 ∧
  nanGt ((rsiOf df).getD (lastIdx (find_peaks_valleys (lows df) LOOKBACK).2) none)
        ((rsiOf df).getD (prevIdx (find_peaks_valleys (lows df) LOOKBACK).2) none) = true

/-- The bearish premises exactly as the claim and the spec state them: over
the two most recent PEAKS of the high column (`(find_peaks_valleys high).1`).
The code's branch never sees this list — line 89 binds the valleys instead. -/
def bearishSpecPattern (df : List Candle) : Prop :=
  2 ≤ ((find_peaks_valleys (highs df) LOOKBACK).1).length ∧
  (df.length : ℤ) - (lastIdx (find_peaks_valleys (highs df) LOOKBACK).1 : ℤ) < 15 ∧
  (highs df).getD (prevIdx (find_peaks_valleys (highs df) LOOKBACK).1) 0 <
    (highs df).getD (lastIdx (find_peaks_valleys (highs df) LOOKBACK).1) 0 ∧
  nanLt ((rsiOf df).getD (lastIdx (find_peaks_valleys (highs df) LOOKBACK).1) none)
        ((rsiOf df).getD (prevIdx (find_peaks_valleys (highs df) LOOKBACK).1) none) = true

instance (df : List Candle) : Decidable (bullishSpecPattern df) := by
  unfold bullishSpecPattern; infer_instance

instance (df : List Candle) : Decidable (bearishSpecPattern df) := by
  unfold bearishSpecPattern; infer_instance

/-- The classifier state written by a firing bullish branch. -/
def bullishState (df : List Candle) (curr_hist prev_hist : ℚ) : AState :=
  ⟨Signal.BullishDiv,
   some ⟨(lows df).getD (prevIdx (price_valleys_idx df)) 0,
         (lows df).getD (lastIdx (price_valleys_idx df)) 0,
         (rsiOf df).getD (prevIdx (price_valleys_idx df)) none,
         (rsiOf df).getD (lastIdx (price_valleys_idx df)) none⟩,
   if curr_hist > prev_hist then Conf.Confirmed else Conf.NotConfirmed⟩

/-- The classifier state written by a firing bearish branch. -/
def bearishState (df : List Candle) (curr_hist prev_hist : ℚ) : AState :=
  ⟨Signal.BearishDiv,
   some ⟨(highs df).getD (prevIdx (price_peaks_idx df)) 0,
         (highs df).getD (lastIdx (price_peaks_idx df)) 0,
         (rsiOf df).getD (prevIdx (price_peaks_idx df)) none,
         (rsiOf df).getD (lastIdx (price_peaks_idx df)) none⟩,
   if curr_hist < prev_hist then Conf.Confirmed else Conf.NotConfirmed⟩

/-- Concrete 25-candle series: close falls one unit per bar into index 13 and
rises afterwards; the low column has valleys at 13 (price 5) and 19 (price 4),
a textbook fresh bullish divergence (lower low in price, higher low in RSI);
its peaks list is empty, as is the valleys list of the flat high column — so
the program, which reads the wrong tuple components, sees two empty lists. -/
def dfBull : List Candle :=
  (List.range 25).map fun i =>
    { high := 20
      low := if i = 13 then 5 else if i = 19 then 4 else 10
      close := if i ≤ 13 then (200 : ℚ) - i else 186 + i }

/-- Concrete 26-candle series on which the spec's bullish pattern (valleys
13, 19 of the low column, RSI rising between them) and the spec's bearish
pattern (peaks 14, 20 of the high column, RSI falling between them) hold
simultaneously; the lists the program actually reads (peaks of low, valleys
of high) are both empty. -/
def dfBoth : List Candle :=
  (List.range 26).map fun i =>
    { high := if i = 14 then 30 else if i = 20 then 31 else 20
      low := if i = 13 then 5 else if i = 19 then 4 else 10
      close := if i ≤ 13 then (200 : ℚ) - i
               else if i = 14 then 200
               else if i ≤ 19 then 186 + i
               else if i = 20 then 150
               else 130 + i }

/-- Concrete 33-candle series whose low column has PEAKS at 13 (price 20) and
19 (price 19) — the list the program's first branch actually receives — with
a lower value and a higher RSI at the later one, and the last one at distance
exactly 14 from the series end; the high column is flat. -/
def dfDist14 : List Candle :=
  (List.range 33).map fun i =>
    { high := 20
      low := if i = 13 then 20 else if i = 19 then 19 else 10
      close := if i ≤ 13 then (200 : ℚ) - i else 186 + i }

/-- Like `dfDist14` but 34 candles long, so the otherwise-firing first-branch
pattern has its last extremum (index 19) at distance exactly 15 from the
series end. -/
def dfStale : List Candle :=
  (List.range 34).map fun i =>
    { high := 20
      low := if i = 13 then 20 else if i = 19 then 19 else 10
      close := if i ≤ 13 then (200 : ℚ) - i else 186 + i }

/-- Minimal two-candle series. -/
def df2c : List Candle := [⟨2, 1, 1⟩, ⟨3, 2, 2⟩]

/-- Low column with a valley exactly at index 5 = N−1−lookback (N = 11). -/
def lowC9 : List ℚ := [10, 9, 8, 7, 6, 5, 6, 7, 8, 9, 10]

/-- High column with a peak exactly at index 5 = N−1−lookback (N = 11). -/
def highC9 : List ℚ := [20, 21, 22, 23, 24, 25, 24, 23, 22, 21, 20]

/-- Strictly increasing 16-entry close series: every delta from index 1 on is
the gain 1, so the spec's seed "mean of gain[1..14]" would be exactly 1. -/
def closeInc : List ℚ := (List.range 16).map fun i => (i : ℚ)

theorem ewmGo_length (α y : ℚ) (as : List ℚ) : (ewmGo α y as).length = as.length + 1 := by
  induction as generalizing y with
  | nil => rfl
  | cons a as ih => simp [ewmGo, ih]

theorem ewmAdjFalse_length (α : ℚ) (xs : List ℚ) :
    (ewmAdjFalse α xs).length = xs.length := by
  cases xs with
  | nil => rfl
  | cons x rest => simp [ewmAdjFalse, ewmGo_length]

theorem diffs_length (xs : List ℚ) : (diffs xs).length = xs.length := by
  cases xs with
  | nil => rfl
  | cons x rest => simp [diffs, List.length_zipWith]

theorem gains_length (xs : List ℚ) : (gains xs).length = xs.length := by
  simp [gains, diffs_length]

theorem losses_length (xs : List ℚ) : (losses xs).length = xs.length := by
  simp [losses, diffs_length]

theorem maskMinPeriods_length (m : Nat) (xs : List ℚ) :
    (maskMinPeriods m xs).length = xs.length := by
  simp [maskMinPeriods, List.length_zipWith]

theorem avg_gain_length (close : List ℚ) : (avg_gain close).length = close.length := by
  simp [avg_gain, maskMinPeriods_length, ewmAdjFalse_length, gains_length]

theorem avg_loss_length (close : List ℚ) : (avg_loss close).length = close.length := by
  simp [avg_loss, maskMinPeriods_length, ewmAdjFalse_length, losses_length]

theorem calculate_rsi_length (close : List ℚ) :
    (calculate_rsi close).length = close.length := by
  simp [calculate_rsi, List.length_zipWith, avg_gain_length, avg_loss_length]

theorem ewmSpan_length (s : Nat) (xs : List ℚ) : (ewmSpan s xs).length = xs.length := by
  simp [ewmSpan, ewmAdjFalse_length]

theorem macd_line_length (close : List ℚ) : (macd_line close).length = close.length := by
  simp [macd_line, List.length_zipWith, ewmSpan_length]

theorem signal_line_length (close : List ℚ) :
    (signal_line close).length = close.length := by
  simp [signal_line, ewmSpan_length, macd_line_length]

theorem macd_hist_length (close : List ℚ) : (macd_hist close).length = close.length := by
  simp [macd_hist, List.length_zipWith, macd_line_length, signal_line_length]

theorem lows_length (df : List Candle) : (lows df).length = df.length := by
  simp [lows]

theorem highs_length (df : List Candle) : (highs df).length = df.length := by
  simp [highs]

theorem closes_length (df : List Candle) : (closes df).length = df.length := by
  simp [closes]

theorem rsiOf_length (df : List Candle) : (rsiOf df).length = df.length := by
  simp [rsiOf, calculate_rsi_length, closes_length]

theorem histOf_length (df : List Candle) : (histOf df).length = df.length := by
  simp [histOf, macd_hist_length, closes_length]

theorem getElem?_eq_some_getD {α : Type} (l : List α) (d : α) (i : Nat)
    (h : i < l.length) : l[i]? = some (l.getD i d) := by
  rw [List.getElem?_eq_getElem h, List.getD_eq_getElem l d h]

theorem zipWith_getD {α β γ : Type} (f : α → β → γ) (as : List α) (bs : List β)
    (i : Nat) (da : α) (db : β) (dc : γ) (h1 : i < as.length) (h2 : i < bs.length) :
    (List.zipWith f as bs).getD i dc = f (as.getD i da) (bs.getD i db) := by
  have h : i < (List.zipWith f as bs).length := by
    rw [List.length_zipWith]; omega
  rw [List.getD_eq_getElem _ _ h, List.getElem_zipWith,
    List.getD_eq_getElem as da h1, List.getD_eq_getElem bs db h2]

theorem getD_of_le {α : Type} (l : List α) (d : α) (i : Nat) (h : l.length ≤ i) :
    l.getD i d = d := by
  rw [List.getD_eq_getElem?_getD, List.getElem?_eq_none h, Option.getD_none]

theorem isPeak_iff (s : List ℚ) (W i : Nat) :
    isPeak s W i = true ↔
      ∀ j, 1 ≤ j → j ≤ W →
        s.getD (i - j) 0 < s.getD i 0 ∧ s.getD (i + j) 0 < s.getD i 0 := by
  unfold isPeak
  rw [Bool.and_eq_true, List.all_eq_true, List.all_eq_true]
  constructor
  · rintro ⟨h1, h2⟩ j hj1 hj2
    have hm : j ∈ List.range' 1 W := List.mem_range'_1.2 ⟨hj1, by omega⟩
    exact ⟨of_decide_eq_true (h1 j hm), of_decide_eq_true (h2 j hm)⟩
  · intro h
    refine ⟨fun j hm => ?_, fun j hm => ?_⟩
    · obtain ⟨hj1, hj2⟩ := List.mem_range'_1.1 hm
      exact decide_eq_true (h j hj1 (by omega)).1
    · obtain ⟨hj1, hj2⟩ := List.mem_range'_1.1 hm
      exact decide_eq_true (h j hj1 (by omega)).2

theorem isValley_iff (s : List ℚ) (W i : Nat) :
    isValley s W i = true ↔
      ∀ j, 1 ≤ j → j ≤ W →
        s.getD i 0 < s.getD (i - j) 0 ∧ s.getD i 0 < s.getD (i + j) 0 := by
  unfold isValley
  rw [Bool.and_eq_true, List.all_eq_true, List.all_eq_true]
  constructor
  · rintro ⟨h1, h2⟩ j hj1 hj2
    have hm : j ∈ List.range' 1 W := List.mem_range'_1.2 ⟨hj1, by omega⟩
    exact ⟨of_decide_eq_true (h1 j hm), of_decide_eq_true (h2 j hm)⟩
  · intro h
    refine ⟨fun j hm => ?_, fun j hm => ?_⟩
    · obtain ⟨hj1, hj2⟩ := List.mem_range'_1.1 hm
      exact decide_eq_true (h j hj1 (by omega)).1
    · obtain ⟨hj1, hj2⟩ := List.mem_range'_1.1 hm
      exact decide_eq_true (h j hj1 (by omega)).2

theorem mem_peaks_iff (s : List ℚ) (W i : Nat) :
    i ∈ (find_peaks_valleys s W).1 ↔
      W ≤ i ∧ i + W < s.length ∧ isPeak s W i = true := by
  unfold find_peaks_valleys
  by_cases h : s.length < W * 2
  · rw [if_pos h]
    simp only [List.not_mem_nil, false_iff]
    rintro ⟨h1, h2, _⟩
    omega
  · rw [if_neg h]
    simp only [List.mem_filter, List.mem_range'_1]
    constructor
    · rintro ⟨⟨h1, h2⟩, hp⟩
      exact ⟨h1, by omega, hp⟩
    · rintro ⟨h1, h2, hp⟩
      exact ⟨⟨h1, by omega⟩, hp⟩

theorem mem_valleys_iff (s : List ℚ) (W i : Nat) :
    i ∈ (find_peaks_valleys s W).2 ↔
      W ≤ i ∧ i + W < s.length ∧ isValley s W i = true := by
  unfold find_peaks_valleys
  by_cases h : s.length < W * 2
  · rw [if_pos h]
    simp only [List.not_mem_nil, false_iff]
    rintro ⟨h1, h2, _⟩
    omega
  · rw [if_neg h]
    simp only [List.mem_filter, List.mem_range'_1]
    constructor
    · rintro ⟨⟨h1, h2⟩, hp⟩
      exact ⟨h1, by omega, hp⟩
    · rintro ⟨h1, h2, hp⟩
      exact ⟨⟨h1, by omega⟩, hp⟩

theorem peaks_pairwise (s : List ℚ) (W : Nat) :
    List.Pairwise (· < ·) (find_peaks_valleys s W).1 := by
  unfold find_peaks_valleys
  by_cases h : s.length < W * 2
  · rw [if_pos h]; exact List.Pairwise.nil
  · rw [if_neg h]; exact (List.pairwise_lt_range' _ _).filter _

theorem valleys_pairwise (s : List ℚ) (W : Nat) :
    List.Pairwise (· < ·) (find_peaks_valleys s W).2 := by
  unfold find_peaks_valleys
  by_cases h : s.length < W * 2
  · rw [if_pos h]; exact List.Pairwise.nil
  · rw [if_neg h]; exact (List.pairwise_lt_range' _ _).filter _

/-- C5: `find_peaks_valleys` returns `i` as a peak iff `i` lies in
`[W, N−W)` and `S[i]` is strictly greater than each of `S[i−j]`, `S[i+j]`
for every `j ∈ [1, W]`, and as a valley iff `S[i]` is strictly smaller than
all the same neighbours (so ties disqualify both roles); when `N < 2W` both
outputs are empty, and both outputs are strictly ascending. -/
theorem find_peaks_valleys_spec (s : List ℚ) (W : Nat) :
    (∀ i, i ∈ (find_peaks_valleys s W).1 ↔
       W ≤ i ∧ i + W < s.length ∧
       ∀ j, 1 ≤ j → j ≤ W →
         s.getD (i - j) 0 < s.getD i 0 ∧ s.getD (i + j) 0 < s.getD i 0) ∧
    (∀ i, i ∈ (find_peaks_valleys s W).2 ↔
       W ≤ i ∧ i + W < s.length ∧
       ∀ j, 1 ≤ j → j ≤ W →
         s.getD i 0 < s.getD (i - j) 0 ∧ s.getD i 0 < s.getD (i + j) 0) ∧
    (s.length < 2 * W → find_peaks_valleys s W = ([], [])) ∧
    List.Pairwise (· < ·) (find_peaks_valleys s W).1 ∧
    List.Pairwise (· < ·) (find_peaks_valleys s W).2 := by
  refine ⟨fun i => ?_, fun i => ?_, fun h => ?_, peaks_pairwise s W, valleys_pairwise s W⟩
  · rw [mem_peaks_iff, isPeak_iff]
  · rw [mem_valleys_iff, isValley_iff]
  · unfold find_peaks_valleys
    rw [if_pos (by omega)]

/-- C5 witness: a series of length 1 with lookback 3 yields two empty lists. -/
theorem find_peaks_valleys_spec_witness :
    find_peaks_valleys [(5 : ℚ)] 3 = ([], []) :=
  (find_peaks_valleys_spec [(5 : ℚ)] 3).2.2.1 (by decide)

/-- C9 (amended): with lookback ≥ 1, every produced index lies in the closed
range `[lookback, N−1−lookback]` (stated as `W ≤ i ∧ i + W < N`), and within
one series an index is a peak or a valley but never both; the valley set of
the low series and the peak set of the high series may nevertheless share an
index, since they come from different columns. -/
theorem extrema_bounds_and_disjoint (s : List ℚ) (W : Nat) (hW : 1 ≤ W) :
    (∀ i, i ∈ (find_peaks_valleys s W).1 → W ≤ i ∧ i + W < s.length) ∧
    (∀ i, i ∈ (find_peaks_valleys s W).2 → W ≤ i ∧ i + W < s.length) ∧
    (∀ i, i ∈ (find_peaks_valleys s W).1 → i ∉ (find_peaks_valleys s W).2) := by
  refine ⟨fun i hi => ?_, fun i hi => ?_, fun i hi hv => ?_⟩
  · obtain ⟨h1, h2, _⟩ := (mem_peaks_iff s W i).1 hi
    exact ⟨h1, h2⟩
  · obtain ⟨h1, h2, _⟩ := (mem_valleys_iff s W i).1 hi
    exact ⟨h1, h2⟩
  · obtain ⟨_, _, hp⟩ := (mem_peaks_iff s W i).1 hi
    obtain ⟨_, _, hv'⟩ := (mem_valleys_iff s W i).1 hv
    have h1 := ((isPeak_iff s W i).1 hp) 1 le_rfl hW
    have h2 := ((isValley_iff s W i).1 hv') 1 le_rfl hW
    exact absurd h1.1 (not_lt.2 (le_of_lt h2.1))

/-- C9 witness: index 5 is a peak of `highC9`, hence not a valley of it. -/
theorem extrema_bounds_and_disjoint_witness :
    5 ∉ (find_peaks_valleys highC9 LOOKBACK).2 :=
  (extrema_bounds_and_disjoint highC9 LOOKBACK (by decide)).2.2 5
    (of_decide_eq_true (by with_unfolding_all rfl))

/-- C9 counterexample: index 5 is produced both as a valley of the low series
and a peak of the high series, and it does not lie strictly below
`N − 1 − lookback` (here `5 = 11 − 1 − 5`). -/
theorem extrema_set_claim_counterexample :
    5 ∈ (find_peaks_valleys lowC9 LOOKBACK).2 ∧
    5 ∈ (find_peaks_valleys highC9 LOOKBACK).1 ∧
    ¬ (5 < lowC9.length - 1 - LOOKBACK) :=
  of_decide_eq_true (by with_unfolding_all rfl)

theorem ewmGo_getD_zero (α y : ℚ) (as : List ℚ) : (ewmGo α y as).getD 0 0 = y := by
  cases as <;> rfl

theorem ewmGo_getD_succ (α : ℚ) (as : List ℚ) (y : ℚ) (i : Nat) (h : i < as.length) :
    (ewmGo α y as).getD (i + 1) 0 =
      α * as.getD i 0 + (1 - α) * (ewmGo α y as).getD i 0 := by
  induction as generalizing y i with
  | nil => simp at h
  | cons a as ih =>
    cases i with
    | zero =>
      show (y :: ewmGo α (α * a + (1 - α) * y) as).getD 1 0 =
        α * (a :: as).getD 0 0 +
          (1 - α) * (y :: ewmGo α (α * a + (1 - α) * y) as).getD 0 0
      rw [List.getD_cons_succ, List.getD_cons_zero, List.getD_cons_zero,
        ewmGo_getD_zero]
    | succ i =>
      have h' : i < as.length := by simp at h; omega
      show (y :: ewmGo α (α * a + (1 - α) * y) as).getD (i + 2) 0 =
        α * (a :: as).getD (i + 1) 0 +
          (1 - α) * (y :: ewmGo α (α * a + (1 - α) * y) as).getD (i + 1) 0
      rw [List.getD_cons_succ, List.getD_cons_succ, List.getD_cons_succ]
      exact ih _ i h'

theorem ewmAdjFalse_getD_zero (α : ℚ) (xs : List ℚ) (h : xs ≠ []) :
    (ewmAdjFalse α xs).getD 0 0 = xs.getD 0 0 := by
  cases xs with
  | nil => exact absurd rfl h
  | cons x rest =>
    show (ewmGo α x rest).getD 0 0 = (x :: rest).getD 0 0
    rw [ewmGo_getD_zero, List.getD_cons_zero]

theorem ewmAdjFalse_getD_succ (α : ℚ) (xs : List ℚ) (i : Nat) (h : i + 1 < xs.length) :
    (ewmAdjFalse α xs).getD (i + 1) 0 =
      α * xs.getD (i + 1) 0 + (1 - α) * (ewmAdjFalse α xs).getD i 0 := by
  cases xs with
  | nil => simp at h
  | cons x rest =>
    have h' : i < rest.length := by simp at h; omega
    show (ewmGo α x rest).getD (i + 1) 0 =
      α * (x :: rest).getD (i + 1) 0 + (1 - α) * (ewmGo α x rest).getD i 0
    rw [ewmGo_getD_succ α rest x i h', List.getD_cons_succ]

theorem maskMinPeriods_getD (m : Nat) (xs : List ℚ) (i : Nat) (h : i < xs.length) :
    (maskMinPeriods m xs).getD i none =
      if i + 1 < m then none else some (xs.getD i 0) := by
  unfold maskMinPeriods
  rw [zipWith_getD _ _ _ i 0 0 none (by simpa using h) h]
  rw [List.getD_eq_getElem _ 0 (by simpa using h), List.getElem_range]

theorem rsiStep_none_left (l : Option ℚ) : rsiStep none l = none := by
  cases l <;> rfl

theorem avg_gain_getD_none (close : List ℚ) (i : Nat) (h : i + 1 < RSI_LENGTH) :
    (avg_gain close).getD i none = none := by
  by_cases hi : i < close.length
  · unfold avg_gain
    rw [maskMinPeriods_getD _ _ i (by rw [ewmAdjFalse_length, gains_length]; exact hi),
      if_pos h]
  · exact getD_of_le _ _ _ (by rw [avg_gain_length]; omega)

theorem avg_gain_getD_some (close : List ℚ) (i : Nat) (h14 : RSI_LENGTH ≤ i + 1)
    (h : i < close.length) :
    (avg_gain close).getD i none =
      some ((ewmAdjFalse (1 / (RSI_LENGTH : ℚ)) (gains close)).getD i 0) := by
  unfold avg_gain
  rw [maskMinPeriods_getD _ _ i (by rw [ewmAdjFalse_length, gains_length]; exact h),
    if_neg (by omega)]

theorem avg_loss_getD_none (close : List ℚ) (i : Nat) (h : i + 1 < RSI_LENGTH) :
    (avg_loss close).getD i none = none := by
  by_cases hi : i < close.length
  · unfold avg_loss
    rw [maskMinPeriods_getD _ _ i (by rw [ewmAdjFalse_length, losses_length]; exact hi),
      if_pos h]
  · exact getD_of_le _ _ _ (by rw [avg_loss_length]; omega)

theorem avg_loss_getD_some (close : List ℚ) (i : Nat) (h14 : RSI_LENGTH ≤ i + 1)
    (h : i < close.length) :
    (avg_loss close).getD i none =
      some ((ewmAdjFalse (1 / (RSI_LENGTH : ℚ)) (losses close)).getD i 0) := by
  unfold avg_loss
  rw [maskMinPeriods_getD _ _ i (by rw [ewmAdjFalse_length, losses_length]; exact h),
    if_neg (by omega)]

theorem calculate_rsi_getD_none (close : List ℚ) (i : Nat) (h : i + 1 < RSI_LENGTH) :
    (calculate_rsi close).getD i none = none := by
  by_cases hi : i < close.length
  · unfold calculate_rsi
    rw [zipWith_getD rsiStep _ _ i none none none
      (by rw [avg_gain_length]; exact hi) (by rw [avg_loss_length]; exact hi)]
    rw [avg_gain_getD_none close i h, rsiStep_none_left]
  · exact getD_of_le _ _ _ (by rw [calculate_rsi_length]; omega)

theorem gains_getD_zero (close : List ℚ) (h : close ≠ []) :
    (gains close).getD 0 0 = 0 := by
  cases close with
  | nil => exact absurd rfl h
  | cons x rest => rfl

/-- C4 (amended): the code's average gain/loss are NaN exactly on indices
`0..L−2` and defined from index `L−1 = 13` on (pandas `min_periods=L` counts
the index-0 row, whose NaN delta was already coerced to gain/loss 0 by the
`where` filter); each defined value is the exponential recursion seeded at
index 0 with `y[0] = gain[0] = 0` and `y[i] = (1/L)·gain[i] + (1−1/L)·y[i−1]`
(not the spec's arithmetic-mean seed at index L); where both averages are
defined with nonzero average loss, momentum is `100 − 100/(1 + g/l)`, and it
is NaN for `i < L−1`. -/
theorem avg_gain_loss_characterization (close : List ℚ) :
    (∀ i, i + 1 < RSI_LENGTH → (avg_gain close).getD i none = none) ∧
    (∀ i, RSI_LENGTH ≤ i + 1 → i < close.length →
       (avg_gain close).getD i none =
         some ((ewmAdjFalse (1 / (RSI_LENGTH : ℚ)) (gains close)).getD i 0)) ∧
    (close ≠ [] →
       (ewmAdjFalse (1 / (RSI_LENGTH : ℚ)) (gains close)).getD 0 0 =
         (gains close).getD 0 0 ∧ (gains close).getD 0 0 = 0) ∧
    (∀ i, i + 1 < close.length →
       (ewmAdjFalse (1 / (RSI_LENGTH : ℚ)) (gains close)).getD (i + 1) 0 =
         1 / (RSI_LENGTH : ℚ) * (gains close).getD (i + 1) 0 +
         (1 - 1 / (RSI_LENGTH : ℚ)) *
           (ewmAdjFalse (1 / (RSI_LENGTH : ℚ)) (gains close)).getD i 0) ∧
    (∀ i, i + 1 < RSI_LENGTH → (avg_loss close).getD i none = none) ∧
    (∀ i, RSI_LENGTH ≤ i + 1 → i < close.length →
       (avg_loss close).getD i none =
         some ((ewmAdjFalse (1 / (RSI_LENGTH : ℚ)) (losses close)).getD i 0)) ∧
    (∀ i, i + 1 < close.length →
       (ewmAdjFalse (1 / (RSI_LENGTH : ℚ)) (losses close)).getD (i + 1) 0 =
         1 / (RSI_LENGTH : ℚ) * (losses close).getD (i + 1) 0 +
         (1 - 1 / (RSI_LENGTH : ℚ)) *
           (ewmAdjFalse (1 / (RSI_LENGTH : ℚ)) (losses close)).getD i 0) ∧
    (∀ i g l, (avg_gain close).getD i none = some g →
       (avg_loss close).getD i none = some l → l ≠ 0 →
       (calculate_rsi close).getD i none = some (100 - 100 / (1 + g / l))) ∧
    (∀ i, i + 1 < RSI_LENGTH → (calculate_rsi close).getD i none = none) := by
  refine ⟨fun i h => avg_gain_getD_none close i h,
    fun i h14 h => avg_gain_getD_some close i h14 h,
    fun h => ⟨ewmAdjFalse_getD_zero _ _ ?_, gains_getD_zero close h⟩,
    fun i h => ewmAdjFalse_getD_succ _ _ i (by rw [gains_length]; exact h),
    fun i h => avg_loss_getD_none close i h,
    fun i h14 h => avg_loss_getD_some close i h14 h,
    fun i h => ewmAdjFalse_getD_succ _ _ i (by rw [losses_length]; exact h),
    ?_,
    fun i h => calculate_rsi_getD_none close i h⟩
  · intro hg
    apply h
    have hl : close.length = 0 := by rw [← gains_length close, hg]; rfl
    exact List.length_eq_zero.1 hl
  · intro i g l hg hl hl0
    have hi : i < close.length := by
      by_contra hI
      rw [getD_of_le _ _ _ (by rw [avg_gain_length]; omega)] at hg
      exact absurd hg (by simp)
    unfold calculate_rsi
    rw [zipWith_getD rsiStep _ _ i none none none
      (by rw [avg_gain_length]; exact hi) (by rw [avg_loss_length]; exact hi), hg, hl]
    show (if l = 0 then (if g = 0 then none else some (100 : ℚ))
        else some (100 - 100 / (1 + g / l))) = _
    rw [if_neg hl0]

/-- C4 witness: on the increasing close series the average gain is NaN at
index 5 and defined (the recursion value) at index 14. -/
theorem avg_gain_loss_characterization_witness :
    (avg_gain closeInc).getD 5 none = none ∧
    (avg_gain closeInc).getD 14 none =
      some ((ewmAdjFalse (1 / (RSI_LENGTH : ℚ)) (gains closeInc)).getD 14 0) :=
  ⟨(avg_gain_loss_characterization closeInc).1 5 (by decide),
   (avg_gain_loss_characterization closeInc).2.1 14 (by decide) (by decide)⟩

/-- C4 counterexample: on the increasing close series (all gains 1) the code's
average gain is already defined at index 13 = L−1, which the claim says is
inside the undefined warm-up `0..L−1`, and its value at index L = 14 differs
from the claim's seed, the arithmetic mean of `gain[1..14]`. -/
theorem avg_gain_claim_counterexample :
    (avg_gain closeInc).getD 13 none ≠ none ∧
    (avg_gain closeInc).getD 14 none ≠
      some ((((List.range' 1 14).map fun j => (gains closeInc).getD j 0).sum) / 14) :=
  of_decide_eq_true (by with_unfolding_all rfl)

/-- C6: the trend oscillator is total (defined from index 0, no warm-up): the
histogram has the same length as close and satisfies
`histogram[i] = trendLine[i] − signalLine[i]` for every `i < N`, where
`trendLine = EMA₁₂(close) − EMA₂₆(close)` and `signalLine = EMA₉(trendLine)`,
and every EMA is seeded `ema[0] = x[0]` with
`ema[i] = α·x[i] + (1−α)·ema[i−1]`, `α = 2/(period+1)`. -/
theorem macd_hist_spec (close : List ℚ) :
    (macd_hist close).length = close.length ∧
    (∀ i, i < close.length →
       (macd_hist close).getD i 0 =
         (macd_line close).getD i 0 - (signal_line close).getD i 0) ∧
    (∀ i, i < close.length →
       (macd_line close).getD i 0 =
         (ewmSpan MACD_FAST close).getD i 0 - (ewmSpan MACD_SLOW close).getD i 0) ∧
    signal_line close = ewmSpan MACD_SIGNAL (macd_line close) ∧
    (∀ p : Nat, ∀ xs : List ℚ, xs ≠ [] → (ewmSpan p xs).getD 0 0 = xs.getD 0 0) ∧
    (∀ p : Nat, ∀ xs : List ℚ, ∀ i, i + 1 < xs.length →
       (ewmSpan p xs).getD (i + 1) 0 =
         2 / ((p : ℚ) + 1) * xs.getD (i + 1) 0 +
         (1 - 2 / ((p : ℚ) + 1)) * (ewmSpan p xs).getD i 0) := by
  refine ⟨macd_hist_length close, fun i h => ?_, fun i h => ?_, rfl,
    fun p xs h => ewmAdjFalse_getD_zero _ xs h,
    fun p xs i h => ewmAdjFalse_getD_succ _ xs i h⟩
  · unfold macd_hist
    exact zipWith_getD _ _ _ i 0 0 0
      (by rw [macd_line_length]; exact h) (by rw [signal_line_length]; exact h)
  · unfold macd_line
    exact zipWith_getD _ _ _ i 0 0 0
      (by rw [ewmSpan_length]; exact h) (by rw [ewmSpan_length]; exact h)

/-- C6 witness: the histogram identity evaluated at index 0 of a two-entry
close series. -/
theorem macd_hist_spec_witness :
    (macd_hist [(1 : ℚ), 2]).getD 0 0 =
      (macd_line [(1 : ℚ), 2]).getD 0 0 - (signal_line [(1 : ℚ), 2]).getD 0 0 :=
  (macd_hist_spec [(1 : ℚ), 2]).2.1 0 (by decide)

theorem ewmGo_getD_nonneg (α : ℚ) (hα0 : 0 ≤ α) (hα1 : α ≤ 1) :
    ∀ (as : List ℚ) (y : ℚ), 0 ≤ y → (∀ a ∈ as, 0 ≤ a) →
      ∀ k, 0 ≤ (ewmGo α y as).getD k 0 := by
  intro as
  induction as with
  | nil =>
    intro y hy _ k
    cases k with
    | zero => exact hy
    | succ k => exact le_refl 0
  | cons a as ih =>
    intro y hy has k
    have ha : 0 ≤ a := has a (List.mem_cons_self a as)
    have hy' : 0 ≤ α * a + (1 - α) * y :=
      add_nonneg (mul_nonneg hα0 ha) (mul_nonneg (by linarith) hy)
    cases k with
    | zero =>
      show 0 ≤ (y :: ewmGo α (α * a + (1 - α) * y) as).getD 0 0
      rw [List.getD_cons_zero]
      exact hy
    | succ k =>
      show 0 ≤ (y :: ewmGo α (α * a + (1 - α) * y) as).getD (k + 1) 0
      rw [List.getD_cons_succ]
      exact ih _ hy' (fun b hb => has b (List.mem_cons_of_mem a hb)) k

theorem ewmAdjFalse_getD_nonneg (α : ℚ) (hα0 : 0 ≤ α) (hα1 : α ≤ 1)
    (xs : List ℚ) (hxs : ∀ a ∈ xs, 0 ≤ a) (k : Nat) :
    0 ≤ (ewmAdjFalse α xs).getD k 0 := by
  cases xs with
  | nil => exact le_refl 0
  | cons x rest =>
    exact ewmGo_getD_nonneg α hα0 hα1 rest x (hxs x (List.mem_cons_self x rest))
      (fun b hb => hxs b (List.mem_cons_of_mem x hb)) k

theorem gains_nonneg (close : List ℚ) : ∀ a ∈ gains close, 0 ≤ a := by
  intro a ha
  obtain ⟨d, _, rfl⟩ := List.mem_map.1 ha
  cases d with
  | none => exact le_refl 0
  | some x =>
    show 0 ≤ if x > 0 then x else 0
    split
    · next h => exact le_of_lt h
    · exact le_refl 0

theorem losses_nonneg (close : List ℚ) : ∀ a ∈ losses close, 0 ≤ a := by
  intro a ha
  obtain ⟨d, _, rfl⟩ := List.mem_map.1 ha
  cases d with
  | none => exact le_refl 0
  | some x =>
    show 0 ≤ if x < 0 then -x else 0
    split
    · next h => linarith
    · exact le_refl 0

/-- C7: every momentum value that is defined (past the warm-up, not the 0/0
flat-market case) lies in the closed interval [0, 100]; moreover with zero
average loss and positive average gain the value is exactly 100. -/
theorem rsi_bounds :
    (∀ (close : List ℚ) (i : Nat) (v : ℚ),
       (calculate_rsi close).getD i none = some v → 0 ≤ v ∧ v ≤ 100) ∧
    (∀ g : ℚ, 0 < g → rsiStep (some g) (some 0) = some 100) := by
  constructor
  · intro close i v h
    by_cases hi : i < close.length
    swap
    · rw [getD_of_le _ _ _ (by rw [calculate_rsi_length]; omega)] at h
      exact absurd h (by simp)
    unfold calculate_rsi at h
    rw [zipWith_getD rsiStep _ _ i none none none
      (by rw [avg_gain_length]; exact hi) (by rw [avg_loss_length]; exact hi)] at h
    by_cases hw : i + 1 < RSI_LENGTH
    · rw [avg_gain_getD_none close i hw, rsiStep_none_left] at h
      exact absurd h (by simp)
    rw [avg_gain_getD_some close i (by omega) hi,
      avg_loss_getD_some close i (by omega) hi] at h
    have hg : 0 ≤ (ewmAdjFalse (1 / (RSI_LENGTH : ℚ)) (gains close)).getD i 0 :=
      ewmAdjFalse_getD_nonneg _ (by norm_num [RSI_LENGTH]) (by norm_num [RSI_LENGTH])
        _ (gains_nonneg close) i
    have hl : 0 ≤ (ewmAdjFalse (1 / (RSI_LENGTH : ℚ)) (losses close)).getD i 0 :=
      ewmAdjFalse_getD_nonneg _ (by norm_num [RSI_LENGTH]) (by norm_num [RSI_LENGTH])
        _ (losses_nonneg close) i
    set g := (ewmAdjFalse (1 / (RSI_LENGTH : ℚ)) (gains close)).getD i 0 with hgdef
    set l := (ewmAdjFalse (1 / (RSI_LENGTH : ℚ)) (losses close)).getD i 0 with hldef
    have h' : (if l = 0 then (if g = 0 then none else some (100 : ℚ))
        else some (100 - 100 / (1 + g / l))) = some v := h
    by_cases hl0 : l = 0
    · rw [if_pos hl0] at h'
      by_cases hg0 : g = 0
      · rw [if_pos hg0] at h'
        exact absurd h' (by simp)
      · rw [if_neg hg0] at h'
        have : (100 : ℚ) = v := Option.some_injective ℚ h'
        constructor <;> linarith
    · rw [if_neg hl0] at h'
      have hv : 100 - 100 / (1 + g / l) = v := Option.some_injective ℚ h'
      have hlpos : 0 < l := lt_of_le_of_ne hl (Ne.symm hl0)
      have hrs : 0 ≤ g / l := div_nonneg hg (le_of_lt hlpos)
      have h1 : (0 : ℚ) < 1 + g / l := by linarith
      have h2 : 100 / (1 + g / l) ≤ 100 := div_le_self (by norm_num) (by linarith)
      have h3 : 0 < 100 / (1 + g / l) := div_pos (by norm_num) h1
      constructor <;> linarith
  · intro g hg
    show (if (0 : ℚ) = 0 then (if g = 0 then none else some (100 : ℚ))
        else some (100 - 100 / (1 + g / 0))) = some 100
    rw [if_pos rfl, if_neg (ne_of_gt hg)]

/-- C7 witness: the momentum value of `dfBull`'s close series at index 13 is
defined and equal to 0, which indeed lies in [0, 100]. -/
theorem rsi_bounds_witness : 0 ≤ (0 : ℚ) ∧ (0 : ℚ) ≤ 100 :=
  rsi_bounds.1 (closes dfBull) 13 0 (by with_unfolding_all rfl)

theorem some_bind' {α β : Type} (a : α) (f : α → Option β) :
    ((some a : Option α) >>= f) = f a := rfl

theorem lastIdx_mem (l : List Nat) (h : 1 ≤ l.length) : lastIdx l ∈ l := by
  unfold lastIdx
  rw [List.getD_eq_getElem l 0 (by omega)]
  exact List.getElem_mem _

theorem prevIdx_mem (l : List Nat) (h : 2 ≤ l.length) : prevIdx l ∈ l := by
  unfold prevIdx
  rw [List.getD_eq_getElem l 0 (by omega)]
  exact List.getElem_mem _

theorem price_valleys_idx_mem_bounds (df : List Candle) (i : Nat)
    (h : i ∈ price_valleys_idx df) :
    LOOKBACK ≤ i ∧ i + LOOKBACK < df.length := by
  obtain ⟨h1, h2, _⟩ := (mem_peaks_iff (lows df) LOOKBACK i).1 h
  rw [lows_length] at h2
  exact ⟨h1, h2⟩

theorem price_peaks_idx_mem_bounds (df : List Candle) (i : Nat)
    (h : i ∈ price_peaks_idx df) :
    LOOKBACK ≤ i ∧ i + LOOKBACK < df.length := by
  obtain ⟨h1, h2, _⟩ := (mem_valleys_iff (highs df) LOOKBACK i).1 h
  rw [highs_length] at h2
  exact ⟨h1, h2⟩

theorem ilocNeg_eq_getD {α : Type} (l : List α) (d : α) (k : Nat) (hk : 1 ≤ k)
    (h : k ≤ l.length) : ilocNeg l k = some (l.getD (l.length - k) d) := by
  unfold ilocNeg
  rw [if_pos h, getElem?_eq_some_getD l d _ (by omega)]

theorem checkBullish_of_fires (df : List Candle) (c p : ℚ) (st : AState)
    (h : bullishFires df) :
    checkBullish (lows df) (rsiOf df) (price_valleys_idx df) df.length c p st =
      some (bullishState df c p) := by
  obtain ⟨h2, hf, hp, hr⟩ := h
  have hlast := price_valleys_idx_mem_bounds df _ (lastIdx_mem _ (by omega))
  have hprev := price_valleys_idx_mem_bounds df _ (prevIdx_mem _ h2)
  have hl1 : lastIdx (price_valleys_idx df) < (lows df).length := by rw [lows_length]; omega
  have hl2 : prevIdx (price_valleys_idx df) < (lows df).length := by rw [lows_length]; omega
  have hr1 : lastIdx (price_valleys_idx df) < (rsiOf df).length := by rw [rsiOf_length]; omega
  have hr2 : prevIdx (price_valleys_idx df) < (rsiOf df).length := by rw [rsiOf_length]; omega
  unfold checkBullish
  rw [if_pos h2, if_pos hf,
    getElem?_eq_some_getD _ (0 : ℚ) _ hl1, getElem?_eq_some_getD _ (0 : ℚ) _ hl2,
    getElem?_eq_some_getD _ (none : Option ℚ) _ hr1,
    getElem?_eq_some_getD _ (none : Option ℚ) _ hr2]
  simp only [some_bind']
  rw [if_pos ⟨hp, hr⟩]
  rfl

theorem checkBullish_not_fires (df : List Candle) (c p : ℚ) (st : AState)
    (h : ¬ bullishFires df) :
    checkBullish (lows df) (rsiOf df) (price_valleys_idx df) df.length c p st = some st := by
  unfold checkBullish
  by_cases h2 : 2 ≤ (price_valleys_idx df).length
  swap
  · rw [if_neg h2]; rfl
  rw [if_pos h2]
  by_cases hf : (df.length : ℤ) - (lastIdx (price_valleys_idx df) : ℤ) < 15
  swap
  · rw [if_neg hf]; rfl
  rw [if_pos hf]
  have hlast := price_valleys_idx_mem_bounds df _ (lastIdx_mem _ (by omega))
  have hprev := price_valleys_idx_mem_bounds df _ (prevIdx_mem _ h2)
  have hl1 : lastIdx (price_valleys_idx df) < (lows df).length := by rw [lows_length]; omega
  have hl2 : prevIdx (price_valleys_idx df) < (lows df).length := by rw [lows_length]; omega
  have hr1 : lastIdx (price_valleys_idx df) < (rsiOf df).length := by rw [rsiOf_length]; omega
  have hr2 : prevIdx (price_valleys_idx df) < (rsiOf df).length := by rw [rsiOf_length]; omega
  rw [getElem?_eq_some_getD _ (0 : ℚ) _ hl1, getElem?_eq_some_getD _ (0 : ℚ) _ hl2,
    getElem?_eq_some_getD _ (none : Option ℚ) _ hr1,
    getElem?_eq_some_getD _ (none : Option ℚ) _ hr2]
  simp only [some_bind']
  rw [if_neg ?cond]
  case cond => rintro ⟨hp', hr'⟩; exact h ⟨h2, hf, hp', hr'⟩
  rfl

theorem checkBearish_of_fires (df : List Candle) (c p : ℚ) (st : AState)
    (h : bearishFires df) :
    checkBearish (highs df) (rsiOf df) (price_peaks_idx df) df.length c p st =
      some (bearishState df c p) := by
  obtain ⟨h2, hf, hp, hr⟩ := h
  have hlast := price_peaks_idx_mem_bounds df _ (lastIdx_mem _ (by omega))
  have hprev := price_peaks_idx_mem_bounds df _ (prevIdx_mem _ h2)
  have hl1 : lastIdx (price_peaks_idx df) < (highs df).length := by rw [highs_length]; omega
  have hl2 : prevIdx (price_peaks_idx df) < (highs df).length := by rw [highs_length]; omega
  have hr1 : lastIdx (price_peaks_idx df) < (rsiOf df).length := by rw [rsiOf_length]; omega
  have hr2 : prevIdx (price_peaks_idx df) < (rsiOf df).length := by rw [rsiOf_length]; omega
  unfold checkBearish
  rw [if_pos h2, if_pos hf,
    getElem?_eq_some_getD _ (0 : ℚ) _ hl1, getElem?_eq_some_getD _ (0 : ℚ) _ hl2,
    getElem?_eq_some_getD _ (none : Option ℚ) _ hr1,
    getElem?_eq_some_getD _ (none : Option ℚ) _ hr2]
  simp only [some_bind']
  rw [if_pos ⟨hp, hr⟩]
  rfl

theorem checkBearish_not_fires (df : List Candle) (c p : ℚ) (st : AState)
    (h : ¬ bearishFires df) :
    checkBearish (highs df) (rsiOf df) (price_peaks_idx df) df.length c p st = some st := by
  unfold checkBearish
  by_cases h2 : 2 ≤ (price_peaks_idx df).length
  swap
  · rw [if_neg h2]; rfl
  rw [if_pos h2]
  by_cases hf : (df.length : ℤ) - (lastIdx (price_peaks_idx df) : ℤ) < 15
  swap
  · rw [if_neg hf]; rfl
  rw [if_pos hf]
  have hlast := price_peaks_idx_mem_bounds df _ (lastIdx_mem _ (by omega))
  have hprev := price_peaks_idx_mem_bounds df _ (prevIdx_mem _ h2)
  have hl1 : lastIdx (price_peaks_idx df) < (highs df).length := by rw [highs_length]; omega
  have hl2 : prevIdx (price_peaks_idx df) < (highs df).length := by rw [highs_length]; omega
  have hr1 : lastIdx (price_peaks_idx df) < (rsiOf df).length := by rw [rsiOf_length]; omega
  have hr2 : prevIdx (price_peaks_idx df) < (rsiOf df).length := by rw [rsiOf_length]; omega
  rw [getElem?_eq_some_getD _ (0 : ℚ) _ hl1, getElem?_eq_some_getD _ (0 : ℚ) _ hl2,
    getElem?_eq_some_getD _ (none : Option ℚ) _ hr1,
    getElem?_eq_some_getD _ (none : Option ℚ) _ hr2]
  simp only [some_bind']
  rw [if_neg ?cond]
  case cond => rintro ⟨hp', hr'⟩; exact h ⟨h2, hf, hp', hr'⟩
  rfl

theorem checkBullish_isSome (df : List Candle) (c p : ℚ) (st : AState) :
    ∃ st', checkBullish (lows df) (rsiOf df) (price_valleys_idx df) df.length c p st =
      some st' := by
  by_cases h : bullishFires df
  · exact ⟨_, checkBullish_of_fires df c p st h⟩
  · exact ⟨st, checkBullish_not_fires df c p st h⟩

theorem checkBearish_isSome (df : List Candle) (c p : ℚ) (st : AState) :
    ∃ st', checkBearish (highs df) (rsiOf df) (price_peaks_idx df) df.length c p st =
      some st' := by
  by_cases h : bearishFires df
  · exact ⟨_, checkBearish_of_fires df c p st h⟩
  · exact ⟨st, checkBearish_not_fires df c p st h⟩

theorem checkBullish_stale (low : List ℚ) (rsi : List (Option ℚ)) (valleys : List Nat)
    (n : Nat) (c p : ℚ) (st : AState)
    (h : 2 ≤ valleys.length → (15 : ℤ) ≤ (n : ℤ) - (lastIdx valleys : ℤ)) :
    checkBullish low rsi valleys n c p st = some st := by
  unfold checkBullish
  by_cases h2 : 2 ≤ valleys.length
  · rw [if_pos h2, if_neg (by have := h h2; omega)]; rfl
  · rw [if_neg h2]; rfl

theorem checkBearish_stale (high : List ℚ) (rsi : List (Option ℚ)) (peaks : List Nat)
    (n : Nat) (c p : ℚ) (st : AState)
    (h : 2 ≤ peaks.length → (15 : ℤ) ≤ (n : ℤ) - (lastIdx peaks : ℤ)) :
    checkBearish high rsi peaks n c p st = some st := by
  unfold checkBearish
  by_cases h2 : 2 ≤ peaks.length
  · rw [if_pos h2, if_neg (by have := h h2; omega)]; rfl
  · rw [if_neg h2]; rfl

/-- C1 (code bug): on `dfBull` the claim's bullish premises hold over the
valleys of the low column — valleys at 13 and 19, fresh, a lower low (4 < 5)
and a higher RSI low — yet the classifier returns the Neutral state with no
details and no confirmation.  Line 88 binds `price_valleys_idx` to the FIRST
component of `find_peaks_valleys(df['low'])`, which is the peaks list (empty
here), so the valley-based bullish check that the variable name, the branch
comment and the spec describe never runs on the valleys. -/
theorem bullish_valleys_code_bug :
    bullishSpecPattern dfBull ∧
    analyze_market dfBull =
      some ((closes dfBull).getD (dfBull.length - 1) 0, st0) :=
  of_decide_eq_true (by with_unfolding_all rfl)

/-- C2 (code bug): on `dfBoth` the claim's bullish pattern (valleys of the
low column) and bearish pattern (peaks of the high column) hold
simultaneously, so the claim requires BearishDivergence via the documented
override; the classifier instead returns the Neutral state, because the
swapped unpacks at lines 88–89 hand both branches the other tuple components
(peaks of low, valleys of high), which are empty here.  The override
mechanism itself (the second branch overwriting `signal`) is in the code, but
it operates on the wrong extrema lists. -/
theorem bearish_override_code_bug :
    bullishSpecPattern dfBoth ∧ bearishSpecPattern dfBoth ∧
    analyze_market dfBoth =
      some ((closes dfBoth).getD (dfBoth.length - 1) 0, st0) :=
  of_decide_eq_true (by with_unfolding_all rfl)

/-- C3: the freshness gate.  Each branch gates on the most recent index of
the extremum list it actually receives (`price_valleys_idx`,
`price_peaks_idx`): if, for whichever branch has at least two indices, the
most recent one lies at distance ≥ 15 from the series end, no divergence is
reported and the result is the Neutral state; and distance exactly 14 is
accepted: on `dfDist14`, whose last first-branch extremum sits at distance
exactly 14, the classifier returns BullishDivergence. -/
theorem freshness_gate (df : List Candle) (hN : 2 ≤ df.length)
    (hv : 2 ≤ (price_valleys_idx df).length →
      (15 : ℤ) ≤ (df.length : ℤ) - (lastIdx (price_valleys_idx df) : ℤ))
    (hp : 2 ≤ (price_peaks_idx df).length →
      (15 : ℤ) ≤ (df.length : ℤ) - (lastIdx (price_peaks_idx df) : ℤ)) :
    analyze_market df = some ((closes df).getD (df.length - 1) 0, st0) ∧
    (analyze_market dfDist14).map (fun r => r.2.sig) = some Signal.BullishDiv ∧
    (dfDist14.length : ℤ) - (lastIdx (price_valleys_idx dfDist14) : ℤ) = 14 := by
  refine ⟨?_, of_decide_eq_true (by with_unfolding_all rfl),
    of_decide_eq_true (by with_unfolding_all rfl)⟩
  unfold analyze_market
  rw [ilocNeg_eq_getD (histOf df) 0 1 (by omega) (by rw [histOf_length]; omega),
    ilocNeg_eq_getD (histOf df) 0 2 (by omega) (by rw [histOf_length]; omega)]
  simp only [some_bind']
  rw [checkBullish_stale _ _ _ _ _ _ _ hv]
  simp only [some_bind']
  rw [checkBearish_stale _ _ _ _ _ _ _ hp]
  simp only [some_bind']
  rw [ilocNeg_eq_getD (closes df) 0 1 (by omega) (by rw [closes_length]; omega),
    closes_length]
  rfl

/-- C3 witness: `dfStale` carries an otherwise-firing first-branch pattern
whose last extremum sits at distance exactly 15, so the result is Neutral. -/
theorem freshness_gate_witness :
    analyze_market dfStale = some ((closes dfStale).getD (dfStale.length - 1) 0, st0) ∧
    (analyze_market dfDist14).map (fun r => r.2.sig) = some Signal.BullishDiv ∧
    (dfDist14.length : ℤ) - (lastIdx (price_valleys_idx dfDist14) : ℤ) = 14 :=
  freshness_gate dfStale (of_decide_eq_true (by with_unfolding_all rfl))
    (of_decide_eq_true (by with_unfolding_all rfl))
    (of_decide_eq_true (by with_unfolding_all rfl))

/-- C8 (amended): for every candle series with at least 2 rows the classifier
runs to completion and returns a result; for N = 0 and N = 1 the two reads of
the most recent histogram values raise (see the counterexample), which the
orchestrator avoids only by refusing series with `N ≤ 26`. -/
theorem analyze_market_total (df : List Candle) (h : 2 ≤ df.length) :
    (analyze_market df).isSome = true := by
  unfold analyze_market
  rw [ilocNeg_eq_getD (histOf df) 0 1 (by omega) (by rw [histOf_length]; omega),
    ilocNeg_eq_getD (histOf df) 0 2 (by omega) (by rw [histOf_length]; omega)]
  simp only [some_bind']
  obtain ⟨st1, h1⟩ := checkBullish_isSome df _ _ st0
  rw [h1]
  simp only [some_bind']
  obtain ⟨st2, h2⟩ := checkBearish_isSome df _ _ st1
  rw [h2]
  simp only [some_bind']
  rw [ilocNeg_eq_getD (closes df) 0 1 (by omega) (by rw [closes_length]; omega)]
  rfl

/-- C8 witness: a two-candle series already yields a (Neutral) result. -/
theorem analyze_market_total_witness : (analyze_market df2c).isSome = true :=
  analyze_market_total df2c (by decide)

/-- C8 counterexample: on the empty series and on a one-candle series the
classifier does not return a result — the reads `macd_hist.iloc[-1]` /
`iloc[-2]` raise an IndexError, modelled as `none`. -/
theorem analyze_market_raises_counterexample :
    analyze_market [] = none ∧ analyze_market [⟨1, 1, 1⟩] = none :=
  of_decide_eq_true (by with_unfolding_all rfl)

/-- C10: if the RSI value at either of the two compared extremum indices is
NaN (e.g. inside the warm-up region), the strict comparison evaluates false
and the check leaves the classifier state unchanged — no exception, no
divergence — for the bullish and the bearish branch alike. -/
theorem nan_momentum_blocks (series : List ℚ) (rsi : List (Option ℚ))
    (idxs : List Nat) (n : Nat) (c p : ℚ) (st : AState)
    (h2 : 2 ≤ idxs.length)
    (hl : lastIdx idxs < series.length) (hpv : prevIdx idxs < series.length)
    (hlr : lastIdx idxs < rsi.length) (hpr : prevIdx idxs < rsi.length)
    (hnan : rsi.getD (lastIdx idxs) none = none ∨
      rsi.getD (prevIdx idxs) none = none) :
    checkBullish series rsi idxs n c p st = some st ∧
    checkBearish series rsi idxs n c p st = some st := by
  have hgt : nanGt (rsi.getD (lastIdx idxs) none) (rsi.getD (prevIdx idxs) none)
      = false := by
    cases hnan with
    | inl h => rw [h]; cases rsi.getD (prevIdx idxs) none <;> rfl
    | inr h => rw [h]; cases rsi.getD (lastIdx idxs) none <;> rfl
  have hlt : nanLt (rsi.getD (lastIdx idxs) none) (rsi.getD (prevIdx idxs) none)
      = false := by
    cases hnan with
    | inl h => rw [h]; cases rsi.getD (prevIdx idxs) none <;> rfl
    | inr h => rw [h]; cases rsi.getD (lastIdx idxs) none <;> rfl
  constructor
  · unfold checkBullish
    rw [if_pos h2]
    by_cases hf : (n : ℤ) - (lastIdx idxs : ℤ) < 15
    swap
    · rw [if_neg hf]; rfl
    rw [if_pos hf, getElem?_eq_some_getD _ (0 : ℚ) _ hl,
      getElem?_eq_some_getD _ (0 : ℚ) _ hpv,
      getElem?_eq_some_getD _ (none : Option ℚ) _ hlr,
      getElem?_eq_some_getD _ (none : Option ℚ) _ hpr]
    simp only [some_bind']
    rw [if_neg ?bullcond]
    case bullcond => rintro ⟨_, hc⟩; rw [hgt] at hc; exact absurd hc (by decide)
    rfl
  · unfold checkBearish
    rw [if_pos h2]
    by_cases hf : (n : ℤ) - (lastIdx idxs : ℤ) < 15
    swap
    · rw [if_neg hf]; rfl
    rw [if_pos hf, getElem?_eq_some_getD _ (0 : ℚ) _ hl,
      getElem?_eq_some_getD _ (0 : ℚ) _ hpv,
      getElem?_eq_some_getD _ (none : Option ℚ) _ hlr,
      getElem?_eq_some_getD _ (none : Option ℚ) _ hpr]
    simp only [some_bind']
    rw [if_neg ?bearcond]
    case bearcond => rintro ⟨_, hc⟩; rw [hlt] at hc; exact absurd hc (by decide)
    rfl

/-- C10 witness: an all-NaN RSI list leaves both checks at the initial
state. -/
theorem nan_momentum_blocks_witness :
    checkBullish [1, 2] [none, none] [0, 1] 2 0 0 st0 = some st0 ∧
    checkBearish [1, 2] [none, none] [0, 1] 2 0 0 st0 = some st0 :=
  nan_momentum_blocks [1, 2] [none, none] [0, 1] 2 0 0 st0 (by decide) (by decide)
    (by decide) (by decide) (by decide) (Or.inl (by decide))

end BitcoinDiv
